import Mathlib

/-!
Shallow embedding of `streamlit_app.py` (shift day-number and shift-type
calculator) and verification of its specification claims.

Python strings are modelled as Lean `String` (restricted to the ASCII
behaviour of `str.strip` / `str.lower` / `re.sub(r'\s+', ' ')`, which is all
the program's identifiers exercise).  A value that may not be a string
(Python accepts arbitrary objects and `clean_input` rejects non-strings) is
modelled by `PyStr`.  Python `date` objects are modelled by `PyDate` together
with the proleptic-Gregorian ordinal used by `datetime.date`: subtraction of
two dates is subtraction of ordinals, and comparison of two dates is
comparison of ordinals.
-/

namespace ShiftCalc

/-- A Python value passed where a string is expected: either an actual string
or some non-string object (`clean_input` maps the latter to `""`). -/
inductive PyStr where
  | str (s : String)
  | nonStr
deriving DecidableEq

/-- The raw string carried by a `PyStr` (only ever used on code paths where
the value is known to be a string; a non-string cleans to `""` and is
rejected before the raw value is consulted). -/
def rawOf : PyStr → String
  | .str s => s
  | .nonStr => ""

/-- ASCII whitespace as recognised by Python's `str.strip`, `str.split` and
`re`'s `\s`: space, tab, newline, carriage return, vertical tab, form feed. -/
def isSpacePy (c : Char) : Bool :=
  c == ' ' || c == '\t' || c == '\n' || c == '\r' || c == Char.ofNat 11 || c == Char.ofNat 12

/-- ASCII lowering, the fragment of Python's `str.lower` the program uses. -/
def pyToLower (c : Char) : Char :=
  match c with
  | 'A' => 'a' | 'B' => 'b' | 'C' => 'c' | 'D' => 'd' | 'E' => 'e' | 'F' => 'f'
  | 'G' => 'g' | 'H' => 'h' | 'I' => 'i' | 'J' => 'j' | 'K' => 'k' | 'L' => 'l'
  | 'M' => 'm' | 'N' => 'n' | 'O' => 'o' | 'P' => 'p' | 'Q' => 'q' | 'R' => 'r'
  | 'S' => 's' | 'T' => 't' | 'U' => 'u' | 'V' => 'v' | 'W' => 'w' | 'X' => 'x'
  | 'Y' => 'y' | 'Z' => 'z'
  | c => c

/-- ASCII upper-casing of one character (for Python's `str.capitalize`). -/
def pyToUpper (c : Char) : Char :=
  match c with
  | 'a' => 'A' | 'b' => 'B' | 'c' => 'C' | 'd' => 'D' | 'e' => 'E' | 'f' => 'F'
  | 'g' => 'G' | 'h' => 'H' | 'i' => 'I' | 'j' => 'J' | 'k' => 'K' | 'l' => 'L'
  | 'm' => 'M' | 'n' => 'N' | 'o' => 'O' | 'p' => 'P' | 'q' => 'Q' | 'r' => 'R'
  | 's' => 'S' | 't' => 'T' | 'u' => 'U' | 'v' => 'V' | 'w' => 'W' | 'x' => 'X'
  | 'y' => 'Y' | 'z' => 'Z'
  | c => c

/-- Python `str.strip()` on the character list: remove leading and trailing
whitespace. -/
def stripChars (l : List Char) : List Char :=
  ((l.dropWhile isSpacePy).reverse.dropWhile isSpacePy).reverse

/-- `re.sub(r'\s+', ' ', ·)`: each maximal run of whitespace characters is
replaced by a single space.  The flag records whether the previous character
belonged to a whitespace run. -/
def collapseAux (prevSpace : Bool) : List Char → List Char
  | [] => []
  | c :: cs =>
    if isSpacePy c then
      if prevSpace then collapseAux true cs
      else ' ' :: collapseAux true cs
    else c :: collapseAux false cs

/-- The character-list pipeline of `clean_input`, in the source's order:
strip, lower, remove commas, collapse whitespace runs. -/
def cleanChars (l : List Char) : List Char :=
  collapseAux false (((stripChars l).map pyToLower).filter (fun c => c != ','))

/-- `clean_input` from the source: non-strings become `""`; strings are
stripped, lower-cased, comma-stripped, and whitespace-collapsed. -/
def clean_input : PyStr → String
  | .nonStr => ""
  | .str s => String.mk (cleanChars s.toList)

/-- Python `str.split()` (no separator): split on whitespace runs, dropping
empty pieces.  `tok` accumulates the current token in reverse. -/
def pySplitAux : List Char → List Char → List (List Char)
  | tok, [] => if tok = [] then [] else [tok.reverse]
  | tok, c :: cs =>
    if isSpacePy c then
      if tok = [] then pySplitAux [] cs
      else tok.reverse :: pySplitAux [] cs
    else pySplitAux (c :: tok) cs

/-- Python `str.split()` at the `String` level. -/
def pySplit (s : String) : List String :=
  (pySplitAux [] s.toList).map (fun l => String.mk l)

/-- Python `str.startswith` on character lists. -/
def startsWithChars : List Char → List Char → Bool
  | [], _ => true
  | _ :: _, [] => false
  | p :: ps, c :: cs => p == c && startsWithChars ps cs

/-- Python `str.capitalize()` (ASCII fragment): first character upper-cased,
the rest lower-cased. -/
def pyCapitalize (s : String) : String :=
  match s.toList with
  | [] => ""
  | c :: rest => String.mk (pyToUpper c :: rest.map pyToLower)

/-- After the leading digit of an `int(...)` literal: digits, with single
underscores allowed between digits (Python 3.6+ grouping). -/
def goodRun : List Char → Bool
  | [] => true
  | c :: rest =>
    if c = '_' then
      match rest with
      | [] => false
      | c2 :: _ => c2.isDigit && goodRun rest
    else c.isDigit && goodRun rest

/-- A non-empty digit sequence acceptable to Python's `int`, underscores
included. -/
def digitsOk : List Char → Bool
  | [] => false
  | c :: rest => c.isDigit && goodRun rest

/-- Numeric value of a digit sequence (underscores ignored). -/
def digitsVal (l : List Char) : Nat :=
  (l.filter (fun c => c.isDigit)).foldl (fun acc c => 10 * acc + (c.toNat - 48)) 0

/-- Python `int(s)` on a whitespace-free token: optional sign followed by
digits; returns `none` where Python raises `ValueError`. -/
def pyParseInt (s : String) : Option Int :=
  match s.toList with
  | '+' :: rest => if digitsOk rest then some ((digitsVal rest : Nat) : Int) else none
  | '-' :: rest => if digitsOk rest then some (-((digitsVal rest : Nat) : Int)) else none
  | l => if digitsOk l then some ((digitsVal l : Nat) : Int) else none

/-! ### Dates -/

/-- A Python `datetime.date`: year, month, day fields. -/
structure PyDate where
  year : Nat
  month : Nat
  day : Nat
deriving DecidableEq

/-- Gregorian leap year, as in `datetime`. -/
def isLeap (y : Nat) : Bool :=
  y % 4 == 0 && (y % 100 != 0 || y % 400 == 0)

/-- Days in a month (`datetime._days_in_month`). -/
def daysInMonth (y m : Nat) : Nat :=
  match m with
  | 1 => 31 | 2 => if isLeap y then 29 else 28 | 3 => 31 | 4 => 30
  | 5 => 31 | 6 => 30 | 7 => 31 | 8 => 31 | 9 => 30 | 10 => 31
  | 11 => 30 | 12 => 31
  | _ => 0

/-- Days before the first of month `m` (`datetime._days_before_month`). -/
def daysBeforeMonth (y m : Nat) : Nat :=
  (match m with
   | 1 => 0 | 2 => 31 | 3 => 59 | 4 => 90 | 5 => 120 | 6 => 151
   | 7 => 181 | 8 => 212 | 9 => 243 | 10 => 273 | 11 => 304 | 12 => 334
   | _ => 0)
  + (if 2 < m ∧ isLeap y then 1 else 0)

/-- Days before January 1 of year `y` (`datetime._days_before_year`). -/
def daysBeforeYear (y : Nat) : Nat :=
  (y - 1) * 365 + (y - 1) / 4 - (y - 1) / 100 + (y - 1) / 400

/-- `date.toordinal()`: day count with `0001-01-01` as day 1.  Subtraction of
two Python dates yields the difference of their ordinals in days, and date
comparison is ordinal comparison. -/
def toOrdinal (d : PyDate) : Nat :=
  daysBeforeYear d.year + daysBeforeMonth d.year d.month + d.day

/-- A well-formed Python calendar date (`datetime.date` invariants). -/
def isValidDate (d : PyDate) : Prop :=
  1 ≤ d.year ∧ d.year ≤ 9999 ∧ 1 ≤ d.month ∧ d.month ≤ 12 ∧
  1 ≤ d.day ∧ d.day ≤ daysInMonth d.year d.month

instance (d : PyDate) : Decidable (isValidDate d) := by
  unfold isValidDate; infer_instance

/-- Python `d1 <= d2` on dates. -/
def dateLE (d1 d2 : PyDate) : Prop :=
  toOrdinal d1 ≤ toOrdinal d2

instance (d1 d2 : PyDate) : Decidable (dateLE d1 d2) := by
  unfold dateLE; infer_instance

/-! ### Configuration constants -/

/-- `ANCHOR_DATE = date(2025, 3, 12)` -/
def ANCHOR_DATE : PyDate := ⟨2025, 3, 12⟩

/-- `ANCHOR_DAY_NUM = 3` -/
def ANCHOR_DAY_NUM : Int := 3

/-- `SPECIAL_BLUE_START_DATE = date(2025, 4, 7)` -/
def SPECIAL_BLUE_START_DATE : PyDate := ⟨2025, 4, 7⟩

/-- `SPECIAL_BLUE_END_DATE = date(2025, 5, 2)` -/
def SPECIAL_BLUE_END_DATE : PyDate := ⟨2025, 5, 2⟩

/-- `get_day_number` from the source:
`delta_days = (target_dt - ANCHOR_DATE).days` and
`(delta_days + ANCHOR_DAY_NUM - 1) % 4 + 1`.  Python's `%` on a positive
modulus agrees with Lean's `Int.emod` used here. -/
def get_day_number (target_dt : PyDate) : Int :=
  ((toOrdinal target_dt : Int) - (toOrdinal ANCHOR_DATE : Int) + ANCHOR_DAY_NUM - 1) % 4 + 1

/-- Modelled from the spec: `dayNumber = ((deltaDays + anchor.dayNumber - 1)
mod 4) + 1` "using a modulo that always returns a non-negative result in
[0,3] before the +1 (i.e., floored/Euclidean modulo)" — written with
`Int.fmod`, the floored modulo. -/
def dayNumber_spec (d : PyDate) : Int :=
  Int.fmod ((toOrdinal d : Int) - (toOrdinal ANCHOR_DATE : Int) + ANCHOR_DAY_NUM - 1) 4 + 1

/-! ### Rotation tables -/

/-- `GOLD_ROTATION`: gold number → (day number → shift type).  A dictionary
lookup that may miss is an `Option`. -/
def GOLD_ROTATION (num : Int) : Option (Int → Option String) :=
  match num with
  | 2 => some (fun d => match d with
      | 1 => some ("Early") | 2 => some ("Middle") | 3 => some ("Late") | 4 => some ("Middle")
      | _ => none)
  | 3 => some (fun d => match d with
      | 1 => some ("Middle") | 2 => some ("Late") | 3 => some ("Middle") | 4 => some ("Early")
      | _ => none)
  | 4 => some (fun d => match d with
      | 1 => some ("Late") | 2 => some ("Middle") | 3 => some ("Early") | 4 => some ("Middle")
      | _ => none)
  | 5 => some (fun d => match d with
      | 1 => some ("Middle") | 2 => some ("Early") | 3 => some ("Middle") | 4 => some ("Late")
      | _ => none)
  | _ => none

/-- `YPBB_SUFFIX_ROTATION`: shared Yellow/Purple/Blue(standard)/Bronze
suffix table. -/
def YPBB_SUFFIX_ROTATION (sfx : String) : Option (Int → Option String) :=
  match sfx with
  | "1-1" => some (fun d => match d with
      | 1 => some ("Early") | 2 => some ("Middle") | 3 => some ("Late") | 4 => some ("Middle")
      | _ => none)
  | "1-2" => some (fun d => match d with
      | 1 => some ("Middle") | 2 => some ("Late") | 3 => some ("Middle") | 4 => some ("Early")
      | _ => none)
  | "2-1" => some (fun d => match d with
      | 1 => some ("Late") | 2 => some ("Middle") | 3 => some ("Early") | 4 => some ("Middle")
      | _ => none)
  | "2-2" => some (fun d => match d with
      | 1 => some ("Middle") | 2 => some ("Early") | 3 => some ("Middle") | 4 => some ("Late")
      | _ => none)
  | "3" => some (fun d => match d with
      | 1 => some ("Middle") | 2 => some ("Early") | 3 => some ("Middle") | 4 => some ("Late")
      | _ => none)
  | _ => none

/-- `GREEN_SUFFIX_ROTATION`. -/
def GREEN_SUFFIX_ROTATION (sfx : String) : Option (Int → Option String) :=
  match sfx with
  | "1" => some (fun d => match d with
      | 1 => some ("Early") | 2 => some ("Middle") | 3 => some ("Late") | 4 => some ("Middle")
      | _ => none)
  | "2" => some (fun d => match d with
      | 1 => some ("Middle") | 2 => some ("Late") | 3 => some ("Middle") | 4 => some ("Early")
      | _ => none)
  | "3" => some (fun d => match d with
      | 1 => some ("Late") | 2 => some ("Middle") | 3 => some ("Early") | 4 => some ("Middle")
      | _ => none)
  | _ => none

/-- `MIST_SCU_ROTATION`: day number → shift type. -/
def MIST_SCU_ROTATION (d : Int) : Option String :=
  match d with
  | 1 => some ("Middle") | 2 => some ("Early") | 3 => some ("Middle") | 4 => some ("Late")
  | _ => none

/-- `GRAY_MIST_EARLY_ON_1_3` (a set in the source; membership is all that is
used). -/
def GRAY_MIST_EARLY_ON_1_3 : List String := ["gray 1 md", "mist transplant"]

/-- `GRAY_MIST_MIDDLE_ON_1_3`. -/
def GRAY_MIST_MIDDLE_ON_1_3 : List String := ["gray 2 md", "gray 3 app"]

/-- `ALL_GRAY_MIST_ROLES = GRAY_MIST_EARLY_ON_1_3.union(GRAY_MIST_MIDDLE_ON_1_3)`. -/
def ALL_GRAY_MIST_ROLES : List String := GRAY_MIST_EARLY_ON_1_3 ++ GRAY_MIST_MIDDLE_ON_1_3

/-! ### Formatting helpers -/

/-- `format_md_app_output`. -/
def format_md_app_output (shift_type : String) : String :=
  shift_type ++ " for APP/TML, MD is fixed 8 am - 5 pm (4 pm weekends/holidays)"

/-- `format_md_app_green_output`. -/
def format_md_app_green_output (shift_type : String) : String :=
  shift_type ++ " for APP, MD is fixed 8 am - 5 pm (4 pm weekends/holidays)"

/-- `format_md_app_mist_scu_output`. -/
def format_md_app_mist_scu_output (shift_type : String) : String :=
  shift_type ++ " for MIST SCU, MD is fixed 8 am - 5 pm (4 pm weekends/holidays)"

/-! ### The classifier -/

/-- Outcome of a call to `get_shift_type_or_info`: a normal Python return
value (a string or `None`), or an uncaught Python exception. -/
inductive PyResult where
  | ret (r : Option String)
  | exn (msg : String)
deriving DecidableEq

/-- The Gray / MIST-Transplant block of `get_shift_type_or_info` (entered
when the cleaned string is in `ALL_GRAY_MIST_ROLES`).  The returned
`shift_type` is truthy exactly when it is `some` (the values are non-empty
strings). -/
def gray_mist_branch (clean_shift : String) (day_num : Int) : PyResult :=
  let shift_type : Option String :=
    if clean_shift ∈ GRAY_MIST_EARLY_ON_1_3 then
      if day_num = 1 ∨ day_num = 3 then some ("Early")
      else if day_num = 2 ∨ day_num = 4 then some ("Middle")
      else none
    else if clean_shift ∈ GRAY_MIST_MIDDLE_ON_1_3 then
      if day_num = 1 ∨ day_num = 3 then some ("Middle")
      else if day_num = 2 ∨ day_num = 4 then some ("Early")
      else none
    else none
  match shift_type with
  | some t => .ret (some t)
  | none => .ret (some ("Internal Error: Missing Gray/MIST Transplant rule for '"
      ++ clean_shift ++ "' Day " ++ toString day_num ++ "."))

/-- The MIST SCU block (entered when the cleaned string starts with
`"mist scu"`). -/
def mist_scu_branch (day_num : Int) : PyResult :=
  match MIST_SCU_ROTATION day_num with
  | some t => .ret (some (format_md_app_mist_scu_output t))
  | none => .ret (some ("Internal Error: Missing MIST SCU Day " ++ toString day_num ++ " rule."))

/-- The Gold block.  `shift_str` is the raw input (used in messages),
`num_str` the rotation-key candidate. -/
def gold_branch (shift_str num_str : String) (day_num : Int) : PyResult :=
  if num_str = "" then
    .ret (some ("Error: Shift '" ++ shift_str ++ "' needs a number (e.g., Gold 3)."))
  else
    match pyParseInt num_str with
    | none => .ret (some ("Error: Invalid number '" ++ num_str ++ "' in Gold shift '"
        ++ shift_str ++ "'."))
    | some num =>
      if num ≤ 0 then
        .ret (some ("Error: Gold shift number in '" ++ shift_str ++ "' must be positive."))
      else if num = 1 then .ret (some ("Early"))
      else if 6 ≤ num then .ret (some ("Middle"))
      else if 2 ≤ num ∧ num ≤ 5 then
        .ret (some (((GOLD_ROTATION num).bind (fun tbl => tbl day_num)).getD
          ("Internal Error: Missing Gold " ++ toString num ++ " Day "
            ++ toString day_num ++ " rule.")))
      else .ret (some ("Error: Invalid Gold shift number " ++ toString num ++ "."))

/-- The Silver block: `num` defaults to 1 when the candidate is absent, and a
`ValueError` from `int(...)` is swallowed (`pass`) leaving `num = 1`.  The
final `.ret none` mirrors the unreachable fall-through past the Python
`if`-chain. -/
def silver_branch (shift_str num_str : String) (day_num : Int) : PyResult :=
  if num_str ≠ "" then
    match pyParseInt num_str with
    | some num =>
      if num ≤ 0 then
        .ret (some ("Error: Silver shift number in '" ++ shift_str ++ "' must be positive."))
      else if num = 1 then .ret (some ("Early"))
      else if 2 ≤ num then .ret (some ("Middle"))
      else .ret none
    | none => .ret (some ("Early"))
  else .ret (some ("Early"))

/-- The Blue block: special-period override first, standard YPBB lookup
otherwise.  The two `strftime('%Y-%m-%d')` calls in the error message format
the constant period bounds and are folded to their values. -/
def blue_branch (shift_str sfx : String) (day_num : Int) (target_dt : PyDate) : PyResult :=
  if sfx = "" then .ret (some ("Error: Blue shift '" ++ shift_str ++ "' needs a suffix."))
  else if dateLE SPECIAL_BLUE_START_DATE target_dt ∧ dateLE target_dt SPECIAL_BLUE_END_DATE then
    if sfx ∉ (["1", "3-1", "3-2"] : List String) then
      .ret (some ("Error: Invalid suffix '" ++ sfx
        ++ "' for Blue shift during 2025-04-07 to 2025-05-02. Use 1, 3-1, or 3-2."))
    else
      let shift_type : Option String :=
        if sfx = "1" then
          if day_num = 1 ∨ day_num = 3 then some ("Early")
          else if day_num = 2 ∨ day_num = 4 then some ("Middle")
          else none
        else if sfx = "3-1" ∨ sfx = "3-2" then
          if day_num = 1 ∨ day_num = 3 then some ("Middle")
          else if day_num = 2 ∨ day_num = 4 then some ("Early")
          else none
        else none
      match shift_type with
      | some t => .ret (some (format_md_app_output t))
      | none => .ret (some ("Internal Error: Missing Special Blue " ++ sfx ++ " Day "
          ++ toString day_num ++ " rule."))
  else
    match YPBB_SUFFIX_ROTATION sfx with
    | none => .ret (some ("Error: Invalid suffix '" ++ sfx
        ++ "' for Blue shift (standard period). Use 1-1, 1-2, 2-1, 2-2, or 3."))
    | some tbl =>
      match tbl day_num with
      | some t => .ret (some (format_md_app_output t))
      | none => .ret (some ("Internal Error: Missing Blue " ++ sfx ++ " Day "
          ++ toString day_num ++ " rule (standard period)."))

/-- The Yellow / Purple / Bronze block. -/
def ypbb_branch (shift_name shift_str sfx : String) (day_num : Int) : PyResult :=
  if sfx = "" then
    .ret (some ("Error: " ++ pyCapitalize shift_name ++ " shift '" ++ shift_str
      ++ "' needs a suffix (e.g., 1-1, 2-2, 3)."))
  else
    match YPBB_SUFFIX_ROTATION sfx with
    | none => .ret (some ("Error: Invalid suffix '" ++ sfx ++ "' for "
        ++ pyCapitalize shift_name ++ " shift. Use 1-1, 1-2, 2-1, 2-2, or 3."))
    | some tbl =>
      match tbl day_num with
      | some t => .ret (some (format_md_app_output t))
      | none => .ret (some ("Internal Error: Missing " ++ pyCapitalize shift_name ++ " "
          ++ sfx ++ " Day " ++ toString day_num ++ " rule."))

/-- The Green block. -/
def green_branch (shift_str sfx : String) (day_num : Int) : PyResult :=
  if sfx = "" then
    .ret (some ("Error: Green shift '" ++ shift_str ++ "' needs a suffix (1, 2, or 3)."))
  else
    match GREEN_SUFFIX_ROTATION sfx with
    | none => .ret (some ("Error: Invalid suffix '" ++ sfx
        ++ "' for Green shift. Use 1, 2, or 3."))
    | some tbl =>
      match tbl day_num with
      | some t => .ret (some (format_md_app_green_output t))
      | none => .ret (some ("Internal Error: Missing Green " ++ sfx ++ " Day "
          ++ toString day_num ++ " rule."))

/-- The tokenising tail of `get_shift_type_or_info`: `parts =
clean_shift.split()`, `shift_name = parts[0]` (an `IndexError` when `parts`
is empty), the trailing `"md"`/`"app"` qualifier dropped, the second
remaining part (if any) taken as both `num_str` and `suffix`, then the
per-line `elif` chain. -/
def line_dispatch (shift_str clean_shift : String) (day_num : Int) (target_dt : PyDate) :
    PyResult :=
  let parts := pySplit clean_shift
  match parts with
  | [] => .exn ("IndexError: list index out of range")
  | shift_name :: _ =>
    let core_parts :=
      if 1 < parts.length ∧ (parts.getLast? = some ("md") ∨ parts.getLast? = some ("app"))
      then parts.dropLast else parts
    let num_str := (core_parts[1]?).getD ("")
    if shift_name = "gold" then gold_branch shift_str num_str day_num
    else if shift_name = "silver" then silver_branch shift_str num_str day_num
    else if shift_name = "blue" then blue_branch shift_str num_str day_num target_dt
    else if shift_name ∈ (["yellow", "purple", "bronze"] : List String) then
      ypbb_branch shift_name shift_str num_str day_num
    else if shift_name = "green" then green_branch shift_str num_str day_num
    else if shift_name = "gray" then
      .ret (some ("Error: Unknown Gray shift role '" ++ shift_str
        ++ "'. Use 'Gray 1 MD', 'Gray 2 MD', or 'Gray 3 APP'."))
    else .ret none

/-- The body of `get_shift_type_or_info` after its argument guards:
normalise, reject empty input, match the multi-word Gray/MIST-Transplant
identifiers, match the `"mist scu"` prefix, then tokenise and dispatch. -/
def get_shift_main (shift_str : PyStr) (day_num : Int) (target_dt : PyDate) : PyResult :=
  let clean_shift := clean_input shift_str
  if clean_shift = "" then .ret (some ("Error: Shift name input cannot be empty."))
  else if clean_shift ∈ ALL_GRAY_MIST_ROLES then gray_mist_branch clean_shift day_num
  else if startsWithChars (("mist scu").toList) clean_shift.toList then
    mist_scu_branch day_num
  else line_dispatch (rawOf shift_str) clean_shift day_num target_dt

/-- `get_shift_type_or_info` from the source.  The `isinstance(day_num, int)`
and `isinstance(target_dt, date)` guards are vacuous in the embedding (the
argument types already guarantee them); the `1 <= day_num <= 4` bound check
is kept. -/
def get_shift_type_or_info (shift_str : PyStr) (day_num : Int) (target_dt : PyDate) :
    PyResult :=
  if ¬(1 ≤ day_num ∧ day_num ≤ 4) then
    .ret (some ("Error: Invalid Day Number calculated."))
  else get_shift_main shift_str day_num target_dt

/-! ### Spec-side vocabulary -/

/-- A `Failure` in the spec's `ClassificationResult` taxonomy: the reference
implementation encodes it as a returned string with the `"Error:"` marker. -/
def isFailure (r : PyResult) : Prop :=
  ∃ s, r = .ret (some s) ∧ startsWithChars (("Error:").toList) s.toList = true

/-- A string that the normaliser leaves alone and that `split` keeps as one
token: non-empty, and free of whitespace, commas, and upper-case (ASCII)
letters. -/
def isCleanToken (t : String) : Prop :=
  t ≠ "" ∧ ∀ c ∈ t.toList, isSpacePy c = false ∧ c ≠ ',' ∧ pyToLower c = c

instance (t : String) : Decidable (isCleanToken t) := by
  unfold isCleanToken; infer_instance

/-- The Gold rotation table entry for a gold number and day number. -/
def goldEntry (num day : Int) : Option String :=
  (GOLD_ROTATION num).bind (fun tbl => tbl day)

/-- The shared YPBB rotation table entry for a suffix and day number. -/
def ypbbEntry (sfx : String) (day : Int) : Option String :=
  (YPBB_SUFFIX_ROTATION sfx).bind (fun tbl => tbl day)

/-- Proof-side invariant of `collapseAux` output: every whitespace character
is the plain space `' '`, and no two adjacent characters are both
whitespace. -/
def wellSpaced : List Char → Prop
  | [] => True
  | [c] => isSpacePy c = false ∨ c = ' '
  | c :: c2 :: rest =>
    (isSpacePy c = false ∨ (c = ' ' ∧ isSpacePy c2 = false)) ∧ wellSpaced (c2 :: rest)

/-! ### Helper lemmas: strings and tokens -/

theorem toList_append (a b : String) : (a ++ b).toList = a.toList ++ b.toList := by
  cases a; cases b; rfl

theorem toList_inj {a b : String} (h : a.toList = b.toList) : a = b := by
  cases a; cases b; exact congrArg String.mk h

theorem toList_mk (l : List Char) : (String.mk l).toList = l := rfl

theorem clean_input_str (s : String) :
    clean_input (.str s) = String.mk (cleanChars s.toList) := rfl

theorem toList_pair (a b : String) :
    (a ++ " " ++ b).toList = a.toList ++ ' ' :: b.toList := by
  rw [toList_append, toList_append]
  simp

theorem toList_ne_nil {a : String} (h : a ≠ "") : a.toList ≠ [] := by
  intro hl
  exact h (toList_inj (by rw [hl]; rfl))

theorem dropWhile_nospace_head {c : Char} {l : List Char} (h : isSpacePy c = false) :
    (c :: l).dropWhile isSpacePy = c :: l := by
  simp [List.dropWhile, h]

theorem strip_pair {a b : List Char} (ha : a ≠ []) (hb : b ≠ [])
    (hna : ∀ c ∈ a, isSpacePy c = false) (hnb : ∀ c ∈ b, isSpacePy c = false) :
    stripChars (a ++ ' ' :: b) = a ++ ' ' :: b := by
  unfold stripChars
  have h1 : (a ++ ' ' :: b).dropWhile isSpacePy = a ++ ' ' :: b := by
    obtain ⟨c, a', rfl⟩ := List.exists_cons_of_ne_nil ha
    simp only [List.cons_append]
    exact dropWhile_nospace_head (hna c (List.mem_cons_self c a'))
  rw [h1]
  have hbr : b.reverse ≠ [] := by simpa using hb
  obtain ⟨d, r', hr⟩ := List.exists_cons_of_ne_nil hbr
  have hd : isSpacePy d = false := by
    have : d ∈ b.reverse := by rw [hr]; exact List.mem_cons_self d r'
    exact hnb d (List.mem_reverse.mp this)
  have hrev : (a ++ ' ' :: b).reverse = d :: (r' ++ ' ' :: a.reverse) := by
    rw [List.reverse_append]
    simp [hr]
  rw [hrev, dropWhile_nospace_head hd, ← hrev, List.reverse_reverse]

theorem map_pyToLower_fixed {l : List Char} (h : ∀ c ∈ l, pyToLower c = c) :
    l.map pyToLower = l := by
  induction l with
  | nil => rfl
  | cons c cs ih =>
    simp only [List.map_cons, h c (List.mem_cons_self c cs)]
    rw [ih (fun x hx => h x (List.mem_cons_of_mem c hx))]

theorem filter_nocomma {l : List Char} (h : ∀ c ∈ l, c ≠ ',') :
    l.filter (fun c => c != ',') = l := by
  induction l with
  | nil => rfl
  | cons c cs ih =>
    have hc : (c != ',') = true := by simpa using h c (List.mem_cons_self c cs)
    simp only [List.filter_cons, hc, if_pos]
    rw [ih (fun x hx => h x (List.mem_cons_of_mem c hx))]

theorem collapseAux_nospace {l : List Char} (h : ∀ c ∈ l, isSpacePy c = false) :
    ∀ flag, collapseAux flag l = l := by
  induction l with
  | nil => intro flag; rfl
  | cons c cs ih =>
    intro flag
    unfold collapseAux
    rw [h c (List.mem_cons_self c cs)]
    simp only [Bool.false_eq_true, if_false]
    rw [ih (fun x hx => h x (List.mem_cons_of_mem c hx)) false]

theorem collapse_pair {a b : List Char}
    (hna : ∀ c ∈ a, isSpacePy c = false) (hnb : ∀ c ∈ b, isSpacePy c = false) :
    collapseAux false (a ++ ' ' :: b) = a ++ ' ' :: b := by
  induction a with
  | nil =>
    simp only [List.nil_append]
    unfold collapseAux
    norm_num [show isSpacePy ' ' = true from rfl]
    exact collapseAux_nospace hnb true
  | cons c a' ih =>
    simp only [List.cons_append]
    unfold collapseAux
    rw [hna c (List.mem_cons_self c a')]
    simp only [Bool.false_eq_true, if_false]
    rw [ih (fun x hx => hna x (List.mem_cons_of_mem c hx))]

theorem cleanChars_pair {a b : List Char} (ha : a ≠ []) (hb : b ≠ [])
    (hca : ∀ c ∈ a, isSpacePy c = false ∧ c ≠ ',' ∧ pyToLower c = c)
    (hcb : ∀ c ∈ b, isSpacePy c = false ∧ c ≠ ',' ∧ pyToLower c = c) :
    cleanChars (a ++ ' ' :: b) = a ++ ' ' :: b := by
  have hmem : ∀ c ∈ a ++ ' ' :: b, c = ' ' ∨ (isSpacePy c = false ∧ c ≠ ',' ∧ pyToLower c = c) := by
    intro c hc
    rcases List.mem_append.mp hc with h | h
    · exact Or.inr (hca c h)
    · rcases List.mem_cons.mp h with h | h
      · exact Or.inl h
      · exact Or.inr (hcb c h)
  unfold cleanChars
  rw [strip_pair ha hb (fun c hc => (hca c hc).1) (fun c hc => (hcb c hc).1)]
  rw [map_pyToLower_fixed (fun c hc => by
    rcases hmem c hc with rfl | h
    · rfl
    · exact h.2.2)]
  rw [filter_nocomma (fun c hc => by
    rcases hmem c hc with rfl | h
    · decide
    · exact h.2.1)]
  exact collapse_pair (fun c hc => (hca c hc).1) (fun c hc => (hcb c hc).1)

theorem clean_input_pair (a b : String) (ha : isCleanToken a) (hb : isCleanToken b) :
    clean_input (.str (a ++ " " ++ b)) = a ++ " " ++ b := by
  rw [clean_input_str, toList_pair a b,
    cleanChars_pair (toList_ne_nil ha.1) (toList_ne_nil hb.1) ha.2 hb.2]
  exact toList_inj (by rw [toList_mk, toList_pair])

theorem pair_ne_empty (a b : String) : a ++ " " ++ b ≠ "" := by
  intro h
  have := congrArg String.toList h
  rw [toList_pair] at this
  simp at this

theorem splitAux_nospace {l : List Char} (h : ∀ c ∈ l, isSpacePy c = false) :
    ∀ tok, tok ≠ [] ∨ l ≠ [] → pySplitAux tok l = [tok.reverse ++ l] := by
  induction l with
  | nil =>
    intro tok hne
    rcases hne with hne | hne
    · unfold pySplitAux; simp [hne]
    · exact absurd rfl hne
  | cons c cs ih =>
    intro tok _
    unfold pySplitAux
    rw [h c (List.mem_cons_self c cs)]
    simp only [Bool.false_eq_true, if_false]
    rw [ih (fun x hx => h x (List.mem_cons_of_mem c hx)) (c :: tok) (Or.inl (by simp))]
    simp

theorem splitAux_pair {a b : List Char} (hb : b ≠ [])
    (hna : ∀ c ∈ a, isSpacePy c = false) (hnb : ∀ c ∈ b, isSpacePy c = false) :
    ∀ tok, tok ≠ [] ∨ a ≠ [] → pySplitAux tok (a ++ ' ' :: b) = [tok.reverse ++ a, b] := by
  induction a with
  | nil =>
    intro tok hne
    have htok : tok ≠ [] := by
      rcases hne with h | h
      · exact h
      · exact absurd rfl h
    simp only [List.nil_append]
    unfold pySplitAux
    norm_num [show isSpacePy ' ' = true from rfl, htok]
    exact splitAux_nospace hnb [] (Or.inr hb)
  | cons c a' ih =>
    intro tok _
    simp only [List.cons_append]
    unfold pySplitAux
    rw [hna c (List.mem_cons_self c a')]
    simp only [Bool.false_eq_true, if_false]
    rw [ih (fun x hx => hna x (List.mem_cons_of_mem c hx)) (c :: tok) (Or.inl (by simp))]
    simp

theorem pySplit_pair (a b : String) (ha : isCleanToken a) (hb : isCleanToken b) :
    pySplit (a ++ " " ++ b) = [a, b] := by
  unfold pySplit
  rw [toList_pair a b,
    splitAux_pair (toList_ne_nil hb.1) (fun c hc => (ha.2 c hc).1) (fun c hc => (hb.2 c hc).1)
      [] (Or.inr (toList_ne_nil ha.1))]
  simp only [List.map_cons, List.map_nil, List.reverse_nil, List.nil_append]
  rw [show String.mk a.toList = a from toList_inj (toList_mk _),
    show String.mk b.toList = b from toList_inj (toList_mk _)]

theorem takeWhile_append_cons {u v : List Char} {x : Char} {p : Char → Bool}
    (hu : ∀ c ∈ u, p c = true) (hx : p x = false) :
    (u ++ x :: v).takeWhile p = u := by
  induction u with
  | nil => simp [List.takeWhile, hx]
  | cons c u' ih =>
    simp only [List.cons_append, List.takeWhile_cons, hu c (List.mem_cons_self c u')]
    simp [ih (fun y hy => hu y (List.mem_cons_of_mem c hy))]

theorem pair_firstTok {a b r : String} (ha : isCleanToken a)
    (h : a ++ " " ++ b = r) :
    a.toList = r.toList.takeWhile (fun c => !isSpacePy c) := by
  rw [← h, toList_pair]
  rw [takeWhile_append_cons (p := fun c => !isSpacePy c)
    (fun c hc => by simp [(ha.2 c hc).1]) (by decide)]

theorem pair_notin_roles {name t : String} (hn : isCleanToken name)
    (hg : name ≠ "gray") (hm : name ≠ "mist") :
    (name ++ " " ++ t) ∉ ALL_GRAY_MIST_ROLES := by
  intro hmem
  have hcase :
      name ++ " " ++ t = "gray 1 md" ∨ name ++ " " ++ t = "mist transplant" ∨
      name ++ " " ++ t = "gray 2 md" ∨ name ++ " " ++ t = "gray 3 app" := by
    simpa [ALL_GRAY_MIST_ROLES, GRAY_MIST_EARLY_ON_1_3, GRAY_MIST_MIDDLE_ON_1_3] using hmem
  rcases hcase with h | h | h | h
  · exact hg (toList_inj ((pair_firstTok hn h).trans (by decide)))
  · exact hm (toList_inj ((pair_firstTok hn h).trans (by decide)))
  · exact hg (toList_inj ((pair_firstTok hn h).trans (by decide)))
  · exact hg (toList_inj ((pair_firstTok hn h).trans (by decide)))

theorem mist_scu_false_pair {name t : String} (hn : isCleanToken name)
    (hmh : name.toList.head? ≠ some 'm') :
    startsWithChars (("mist scu").toList) ((name ++ " " ++ t).toList) = false := by
  rw [toList_pair]
  obtain ⟨c, rest, hc⟩ := List.exists_cons_of_ne_nil (toList_ne_nil hn.1)
  rw [hc]
  have : c ≠ 'm' := by
    intro hcm
    exact hmh (by rw [hc, hcm]; rfl)
  simp [startsWithChars, List.cons_append]
  intro h
  exact absurd h.symm this

/-- With a day number in {1,2,3,4}, the guard at the top of
`get_shift_type_or_info` passes. -/
theorem get_shift_guard_pass (v : PyStr) (day : Int) (d : PyDate)
    (h1 : 1 ≤ day) (h4 : day ≤ 4) :
    get_shift_type_or_info v day d = get_shift_main v day d := by
  unfold get_shift_type_or_info
  rw [if_neg (not_not_intro ⟨h1, h4⟩)]

/-- Evaluation of the classifier on a two-token input `name ++ " " ++ t`
whose tokens the normaliser leaves untouched: the input reaches the per-line
`elif` chain with `shift_name = name` and rotation-key candidate `t`. -/
theorem get_shift_pair_dispatch (name t : String) (day : Int) (d : PyDate)
    (h1 : 1 ≤ day) (h4 : day ≤ 4) (hn : isCleanToken name) (ht : isCleanToken t)
    (hg : name ≠ "gray") (hm : name ≠ "mist") (hmh : name.toList.head? ≠ some 'm')
    (hmd : t ≠ "md") (happ : t ≠ "app") :
    get_shift_type_or_info (.str (name ++ " " ++ t)) day d =
      (if name = "gold" then gold_branch (name ++ " " ++ t) t day
       else if name = "silver" then silver_branch (name ++ " " ++ t) t day
       else if name = "blue" then blue_branch (name ++ " " ++ t) t day d
       else if name ∈ (["yellow", "purple", "bronze"] : List String) then
         ypbb_branch name (name ++ " " ++ t) t day
       else if name = "green" then green_branch (name ++ " " ++ t) t day
       else if name = "gray" then
         .ret (some ("Error: Unknown Gray shift role '" ++ (name ++ " " ++ t)
           ++ "'. Use 'Gray 1 MD', 'Gray 2 MD', or 'Gray 3 APP'."))
       else .ret none) := by
  rw [get_shift_guard_pass _ _ _ h1 h4]
  unfold get_shift_main
  simp only [clean_input_pair name t hn ht, rawOf]
  rw [if_neg (pair_ne_empty name t), if_neg (pair_notin_roles hn hg hm)]
  rw [if_neg (show ¬(startsWithChars (("mist scu").toList)
      ((name ++ " " ++ t)).toList = true) by
    rw [mist_scu_false_pair hn hmh]
    exact Bool.false_ne_true)]
  unfold line_dispatch
  rw [pySplit_pair name t hn ht]
  simp only [List.length_cons, List.length_nil, List.getLast?_cons_cons,
    List.getLast?_singleton, List.getElem?_cons_succ, List.getElem?_cons_zero,
    Option.getD_some]
  rw [if_neg (show ¬((1 : Nat) < 0 + 1 + 1 ∧ (some t = some ("md") ∨ some t = some ("app")))
      by simp [hmd, happ])]
  simp only [List.getElem?_cons_succ, List.getElem?_cons_zero, Option.getD_some]

theorem pyToLower_isSpace (c : Char) : isSpacePy (pyToLower c) = isSpacePy c := by
  unfold pyToLower
  split <;> first | rfl | decide

theorem pyToLower_cases (c : Char) :
    pyToLower c = c ∨ pyToLower c ∈ (['a', 'b', 'c', 'd', 'e', 'f', 'g', 'h', 'i', 'j', 'k',
      'l', 'm', 'n', 'o', 'p', 'q', 'r', 's', 't', 'u', 'v', 'w', 'x', 'y', 'z'] : List Char) := by
  unfold pyToLower
  split <;> first | (right; decide) | (left; rfl)

theorem pyToLower_idem (c : Char) : pyToLower (pyToLower c) = pyToLower c := by
  rcases pyToLower_cases c with h | h
  · rw [h]; exact h
  · simp only [List.mem_cons, List.not_mem_nil, or_false] at h
    rcases h with h|h|h|h|h|h|h|h|h|h|h|h|h|h|h|h|h|h|h|h|h|h|h|h|h|h <;>
      rw [h] <;> decide

theorem pyToLower_ne_comma {c : Char} (h : c ≠ ',') : pyToLower c ≠ ',' := by
  unfold pyToLower
  split <;> first | decide | exact h


theorem mem_dropWhile {c : Char} {p : Char → Bool} :
    ∀ {l : List Char}, c ∈ l.dropWhile p → c ∈ l := by
  intro l
  induction l with
  | nil => exact fun h => h
  | cons a cs ih =>
    intro h
    by_cases ha : p a
    · rw [List.dropWhile_cons_of_pos ha] at h
      exact List.mem_cons_of_mem a (ih h)
    · rw [List.dropWhile_cons_of_neg ha] at h
      exact h

theorem mem_stripChars {c : Char} {l : List Char} (h : c ∈ stripChars l) : c ∈ l := by
  unfold stripChars at h
  rw [List.mem_reverse] at h
  have h2 := mem_dropWhile h
  rw [List.mem_reverse] at h2
  exact mem_dropWhile h2

theorem mem_collapseAux {c : Char} :
    ∀ {l : List Char} {flag : Bool}, c ∈ collapseAux flag l → c = ' ' ∨ c ∈ l := by
  intro l
  induction l with
  | nil => intro flag h; exact absurd h (List.not_mem_nil c)
  | cons a cs ih =>
    intro flag h
    unfold collapseAux at h
    by_cases ha : isSpacePy a = true
    · rw [ha] at h
      simp only [if_true] at h
      rcases hf : flag with _ | _
      · rw [hf] at h
        simp only [Bool.false_eq_true, if_false] at h
        rcases List.mem_cons.mp h with rfl | h2
        · exact Or.inl rfl
        · rcases ih h2 with h3 | h3
          · exact Or.inl h3
          · exact Or.inr (List.mem_cons_of_mem a h3)
      · rw [hf] at h
        simp only [if_true] at h
        rcases ih h with h3 | h3
        · exact Or.inl h3
        · exact Or.inr (List.mem_cons_of_mem a h3)
    · rw [Bool.not_eq_true] at ha
      rw [ha] at h
      simp only [Bool.false_eq_true, if_false] at h
      rcases List.mem_cons.mp h with rfl | h2
      · exact Or.inr (List.mem_cons_self c cs)
      · rcases ih h2 with h3 | h3
        · exact Or.inl h3
        · exact Or.inr (List.mem_cons_of_mem a h3)

theorem dropWhile_head_prop (l : List Char) :
    l.dropWhile isSpacePy = [] ∨
    ∃ x xs, l.dropWhile isSpacePy = x :: xs ∧ isSpacePy x = false := by
  induction l with
  | nil => exact Or.inl rfl
  | cons a cs ih =>
    by_cases ha : isSpacePy a = true
    · rw [List.dropWhile_cons_of_pos ha]
      exact ih
    · rw [List.dropWhile_cons_of_neg ha]
      exact Or.inr ⟨a, cs, rfl, Bool.not_eq_true _ ▸ ha⟩

theorem stripChars_head_prop (l : List Char) :
    stripChars l = [] ∨
    ∃ x xs, stripChars l = x :: xs ∧ isSpacePy x = false := by
  rcases dropWhile_head_prop l with h0 | ⟨y, ys, hy, hys⟩
  · unfold stripChars
    rw [h0]
    exact Or.inl rfl
  · unfold stripChars
    rw [hy]
    rcases hs : ((y :: ys).reverse.dropWhile isSpacePy).reverse with _ | ⟨x, xs⟩
    · exact Or.inl rfl
    · refine Or.inr ⟨x, xs, rfl, ?_⟩
      have hdecomp : y :: ys
          = (x :: xs) ++ ((y :: ys).reverse.takeWhile isSpacePy).reverse := by
        rw [← hs, ← List.reverse_append, List.takeWhile_append_dropWhile,
          List.reverse_reverse]
      have hxy : y = x := by
        have := congrArg List.head? hdecomp
        simpa using this
      rw [← hxy]
      exact hys

theorem stripChars_getLast_prop (l : List Char) {x : Char}
    (h : (stripChars l).getLast? = some x) : isSpacePy x = false := by
  unfold stripChars at h
  rw [List.getLast?_reverse] at h
  rcases dropWhile_head_prop ((l.dropWhile isSpacePy).reverse) with h0 | ⟨y, ys, hy, hys⟩
  · rw [h0] at h
    cases h
  · rw [hy] at h
    rw [show (y :: ys).head? = some y from rfl] at h
    rw [← Option.some.inj h]
    exact hys

theorem getLast?_map (f : Char → Char) :
    ∀ l : List Char, (l.map f).getLast? = l.getLast?.map f := by
  intro l
  induction l with
  | nil => rfl
  | cons a cs ih =>
    cases cs with
    | nil => rfl
    | cons b cs' =>
      simpa [List.getLast?_cons_cons] using ih

theorem getLast?_cons_of_getLast? {X : List Char} {a x : Char}
    (h : X.getLast? = some x) : (a :: X).getLast? = some x := by
  cases X with
  | nil => cases h
  | cons b rest => rw [List.getLast?_cons_cons]; exact h

theorem collapseAux_true_head (cs : List Char) :
    collapseAux true cs = [] ∨
    ∃ x xs, collapseAux true cs = x :: xs ∧ isSpacePy x = false := by
  induction cs with
  | nil => exact Or.inl rfl
  | cons a cs' ih =>
    unfold collapseAux
    by_cases ha : isSpacePy a = true
    · rw [ha]
      simpa using ih
    · rw [Bool.not_eq_true] at ha
      rw [ha]
      simp only [Bool.false_eq_true, if_false]
      exact Or.inr ⟨a, _, rfl, ha⟩

theorem collapseAux_flag_irrel {b : Char} (hb : isSpacePy b = false)
    (flag : Bool) (x : List Char) :
    collapseAux flag (b :: x) = b :: collapseAux false x := by
  conv_lhs => unfold collapseAux
  rw [hb]
  simp

theorem collapseAux_getLast :
    ∀ (l : List Char) (flag : Bool) (x : Char), l.getLast? = some x →
      isSpacePy x = false → (collapseAux flag l).getLast? = some x := by
  intro l
  induction l with
  | nil => intro flag x h _; cases h
  | cons a cs ih =>
    intro flag x h hx
    cases cs with
    | nil =>
      have hax : a = x := by simpa using h
      subst hax
      rw [collapseAux_flag_irrel hx flag []]
      rfl
    | cons b cs' =>
      rw [List.getLast?_cons_cons] at h
      by_cases ha : isSpacePy a = true
      · unfold collapseAux
        rw [ha]
        simp only [if_true]
        rcases hf : flag with _ | _
        · simp only [Bool.false_eq_true, if_false]
          exact getLast?_cons_of_getLast? (ih true x h hx)
        · simp only [if_true]
          exact ih true x h hx
      · rw [Bool.not_eq_true] at ha
        rw [collapseAux_flag_irrel ha flag (b :: cs')]
        exact getLast?_cons_of_getLast? (ih false x h hx)

theorem wellSpaced_cons_nonspace {c : Char} {l : List Char}
    (hc : isSpacePy c = false) (hl : wellSpaced l) : wellSpaced (c :: l) := by
  cases l with
  | nil => exact Or.inl hc
  | cons b rest => exact ⟨Or.inl hc, hl⟩

theorem collapseAux_wellSpaced :
    ∀ (l : List Char) (flag : Bool), wellSpaced (collapseAux flag l) := by
  intro l
  induction l with
  | nil => intro flag; trivial
  | cons a cs ih =>
    intro flag
    by_cases ha : isSpacePy a = true
    · unfold collapseAux
      rw [ha]
      simp only [if_true]
      rcases hf : flag with _ | _
      · simp only [Bool.false_eq_true, if_false]
        rcases collapseAux_true_head cs with h0 | ⟨x, xs, hx, hxs⟩
        · rw [h0]
          exact Or.inr rfl
        · rw [hx]
          refine ⟨Or.inr ⟨rfl, hxs⟩, ?_⟩
          rw [← hx]
          exact ih true
      · simp only [if_true]
        exact ih true
    · rw [Bool.not_eq_true] at ha
      rw [collapseAux_flag_irrel ha flag cs]
      exact wellSpaced_cons_nonspace ha (ih false)

theorem collapseAux_id_of_wellSpaced :
    ∀ l : List Char, wellSpaced l → collapseAux false l = l := by
  intro l
  induction l with
  | nil => intro _; rfl
  | cons a cs ih =>
    intro h
    cases cs with
    | nil =>
      rcases h with ha | ha
      · rw [collapseAux_flag_irrel ha false []]
        rfl
      · subst ha
        rfl
    | cons b cs' =>
      rcases h.1 with ha | ⟨ha, hb⟩
      · rw [collapseAux_flag_irrel ha false (b :: cs')]
        rw [ih h.2]
      · subst ha
        have hstep : collapseAux false (' ' :: b :: cs')
            = ' ' :: collapseAux true (b :: cs') := rfl
        rw [hstep, collapseAux_flag_irrel hb true cs', ← collapseAux_flag_irrel hb false cs',
          ih h.2]

theorem stripChars_id {l : List Char}
    (h1 : ∀ x, l.head? = some x → isSpacePy x = false)
    (h2 : ∀ x, l.getLast? = some x → isSpacePy x = false) :
    stripChars l = l := by
  cases l with
  | nil => rfl
  | cons a cs =>
    have ha : isSpacePy a = false := h1 a rfl
    unfold stripChars
    rw [dropWhile_nospace_head ha]
    rcases hrev : (a :: cs).reverse with _ | ⟨b, rs⟩
    · exact absurd (congrArg List.length hrev) (by simp)
    · have hb : (a :: cs).getLast? = some b := by
        rw [← List.head?_reverse, hrev]
        rfl
      have hbs : isSpacePy b = false := h2 b hb
      rw [dropWhile_nospace_head hbs]
      have hback := congrArg List.reverse hrev
      rw [List.reverse_reverse] at hback
      exact hback.symm

theorem cleanChars_idem {l : List Char} (hc : ∀ c ∈ l, c ≠ ',') :
    cleanChars (cleanChars l) = cleanChars l := by
  have hp_comma : ∀ c ∈ stripChars l, c ≠ ',' := fun c hcm => hc c (mem_stripChars hcm)
  have hm_comma : ∀ c ∈ (stripChars l).map pyToLower, c ≠ ',' := by
    intro c hcm
    obtain ⟨c₀, hc₀, rfl⟩ := List.mem_map.mp hcm
    exact pyToLower_ne_comma (hp_comma c₀ hc₀)
  have hclean : cleanChars l = collapseAux false ((stripChars l).map pyToLower) := by
    unfold cleanChars
    rw [filter_nocomma hm_comma]
  set m := (stripChars l).map pyToLower with hm
  set r := collapseAux false m with hr
  have hr_mem : ∀ c ∈ r, c = ' ' ∨ ∃ c₀, c = pyToLower c₀ := by
    intro c hcm
    rcases mem_collapseAux hcm with h | h
    · exact Or.inl h
    · obtain ⟨c₀, _, rfl⟩ := List.mem_map.mp h
      exact Or.inr ⟨c₀, rfl⟩
  have hr_comma : ∀ c ∈ r, c ≠ ',' := by
    intro c hcm
    rcases mem_collapseAux hcm with h | h
    · rw [h]; decide
    · exact hm_comma c h
  have hr_lower : ∀ c ∈ r, pyToLower c = c := by
    intro c hcm
    rcases hr_mem c hcm with rfl | ⟨c₀, rfl⟩
    · decide
    · exact pyToLower_idem c₀
  have hm_head : ∀ x, m.head? = some x → isSpacePy x = false := by
    intro x hx
    rw [hm, List.head?_map] at hx
    rcases stripChars_head_prop l with h0 | ⟨y, ys, hy, hys⟩
    · rw [h0] at hx
      cases hx
    · rw [hy] at hx
      have hxy : pyToLower y = x := by simpa using hx
      rw [← hxy, pyToLower_isSpace]
      exact hys
  have hm_last : ∀ x, m.getLast? = some x → isSpacePy x = false := by
    intro x hx
    rw [hm, getLast?_map] at hx
    rcases hgl : (stripChars l).getLast? with _ | y
    · rw [hgl] at hx
      cases hx
    · rw [hgl] at hx
      have hy := stripChars_getLast_prop l hgl
      have hxy : pyToLower y = x := by simpa using hx
      rw [← hxy, pyToLower_isSpace]
      exact hy
  have hr_head : ∀ x, r.head? = some x → isSpacePy x = false := by
    intro x hx
    rcases hm_shape : m with _ | ⟨a, ms⟩
    · rw [hr, hm_shape] at hx
      cases hx
    · have ha : isSpacePy a = false := hm_head a (by rw [hm_shape]; rfl)
      rw [hr, hm_shape, collapseAux_flag_irrel ha false ms] at hx
      have hax : a = x := by simpa using hx
      rw [← hax]
      exact ha
  have hr_last : ∀ x, r.getLast? = some x → isSpacePy x = false := by
    intro x hx
    rcases hm_shape : m with _ | ⟨a, ms⟩
    · rw [hr, hm_shape] at hx
      cases hx
    · rcases hgl : (a :: ms).getLast? with _ | y
      · exact absurd hgl (by cases ms <;> simp)
      · have hy : isSpacePy y = false := hm_last y (by rw [hm_shape]; exact hgl)
        have hcl := collapseAux_getLast (a :: ms) false y hgl hy
        rw [hr, hm_shape, hcl] at hx
        rw [← Option.some.inj hx]
        exact hy
  rw [hclean]
  unfold cleanChars
  rw [stripChars_id hr_head hr_last, map_pyToLower_fixed hr_lower, filter_nocomma hr_comma]
  exact collapseAux_id_of_wellSpaced r (by rw [hr]; exact collapseAux_wellSpaced m false)

/-- A successful `startsWithChars` test exhibits the pattern as a prefix of
the list. -/
theorem startsWithChars_shape :
    ∀ p l : List Char, startsWithChars p l = true → ∃ r, l = p ++ r := by
  intro p
  induction p with
  | nil => exact fun l _ => ⟨l, rfl⟩
  | cons x ps ih =>
    intro l h
    rcases l with _ | ⟨c, cs⟩
    · exact absurd h (by simp [startsWithChars])
    · have hx : x = c ∧ startsWithChars ps cs = true := by
        simpa [startsWithChars, Bool.and_eq_true, beq_iff_eq] using h
      obtain ⟨r, hr⟩ := ih cs hx.2
      exact ⟨r, by simp [hx.1, hr]⟩

/-- A string whose characters start with `"mist "` splits into the token
`"mist"` followed by the split of the remainder. -/
theorem pySplit_mist_head (s : String) (r : List Char)
    (h : s.toList = 'm' :: 'i' :: 's' :: 't' :: ' ' :: r) :
    pySplit s = "mist" :: (pySplitAux [] r).map (fun l => String.mk l) := by
  unfold pySplit
  rw [h]
  have hstep : pySplitAux [] ('m' :: 'i' :: 's' :: 't' :: ' ' :: r)
      = ['m', 'i', 's', 't'] :: pySplitAux [] r := by
    simp [pySplitAux, isSpacePy]
  rw [hstep]
  simp

/-- A cleaned string that passes the `"mist scu"` test has first token
`"mist"`. -/
theorem mist_scu_first_token (s : String)
    (h : startsWithChars (("mist scu").toList) s.toList = true) :
    ∃ rest, pySplit s = "mist" :: rest := by
  obtain ⟨r, hr⟩ := startsWithChars_shape _ _ h
  exact ⟨_, pySplit_mist_head s ('s' :: 'c' :: 'u' :: r) (by simpa using hr)⟩

/-- A returned string that does not carry the `"Error:"` marker is not a
Failure. -/
theorem not_failure_ret {x : String}
    (h : startsWithChars (("Error:").toList) x.toList = false) :
    ¬ isFailure (.ret (some x)) := by
  rintro ⟨s, hs, hsw⟩
  have hx : some x = some s := PyResult.ret.inj hs
  have : x = s := Option.some.inj hx
  rw [← this, h] at hsw
  exact Bool.false_ne_true hsw

/-- The `None` return is not a Failure. -/
theorem not_failure_ret_none : ¬ isFailure (.ret none) := by
  rintro ⟨s, hs, _⟩
  exact Option.noConfusion (PyResult.ret.inj hs)

/-! ### Claims -/

/-- C1: for every well-formed calendar date `d` (dates before the anchor
included), `get_day_number d` equals the spec formula
`((d - anchor.date in days) + anchor.dayNumber - 1) fmod 4 + 1` with floored
(equivalently, for the positive modulus 4, Euclidean) modulo, hence always
lies in {1,2,3,4}; and `get_day_number` maps the anchor date to exactly the
anchor day number. -/
theorem C1_day_number_formula :
    (∀ d : PyDate, isValidDate d →
      get_day_number d = dayNumber_spec d ∧
      (get_day_number d = 1 ∨ get_day_number d = 2 ∨
       get_day_number d = 3 ∨ get_day_number d = 4)) ∧
    get_day_number ANCHOR_DATE = ANCHOR_DAY_NUM := by
  constructor
  · intro d _
    constructor
    · unfold get_day_number dayNumber_spec
      rw [Int.fmod_eq_emod _ (show (0 : Int) ≤ 4 by norm_num)]
    · unfold get_day_number
      omega
  · decide

/-- Witness for C1 at the concrete date 2024-01-01, strictly before the
anchor date. -/
theorem C1_day_number_formula_witness :
    isValidDate ⟨2024, 1, 1⟩ ∧
    (get_day_number ⟨2024, 1, 1⟩ = dayNumber_spec ⟨2024, 1, 1⟩ ∧
     (get_day_number ⟨2024, 1, 1⟩ = 1 ∨ get_day_number ⟨2024, 1, 1⟩ = 2 ∨
      get_day_number ⟨2024, 1, 1⟩ = 3 ∨ get_day_number ⟨2024, 1, 1⟩ = 4)) :=
  ⟨by decide, C1_day_number_formula.1 ⟨2024, 1, 1⟩ (by decide)⟩

/-- C2: for every date in the special Blue period (endpoints inclusive) and
every day number in {1,2,3,4}: key "1" gives Early on days {1,3} and Middle
on {2,4}; keys "3-1" and "3-2" give Middle on {1,3} and Early on {2,4}, all
wrapped in the APP/TML fixed-hours clause; and any other (parsed) rotation
key gives the Failure naming the valid special-period key set. -/
theorem C2_blue_special_period (d : PyDate) (day : Int)
    (hv : isValidDate d)
    (hs : dateLE SPECIAL_BLUE_START_DATE d) (he : dateLE d SPECIAL_BLUE_END_DATE)
    (h1 : 1 ≤ day) (h4 : day ≤ 4) :
    (get_shift_type_or_info (.str ("blue 1")) day d
       = .ret (some (format_md_app_output (if day = 1 ∨ day = 3 then ("Early") else ("Middle")))))
    ∧ (get_shift_type_or_info (.str ("blue 3-1")) day d
       = .ret (some (format_md_app_output (if day = 1 ∨ day = 3 then ("Middle") else ("Early")))))
    ∧ (get_shift_type_or_info (.str ("blue 3-2")) day d
       = .ret (some (format_md_app_output (if day = 1 ∨ day = 3 then ("Middle") else ("Early")))))
    ∧ (∀ t : String, isCleanToken t → t ≠ "md" → t ≠ "app" →
        t ∉ (["1", "3-1", "3-2"] : List String) →
        get_shift_type_or_info (.str ("blue" ++ " " ++ t)) day d
          = .ret (some ("Error: Invalid suffix '" ++ t
              ++ "' for Blue shift during 2025-04-07 to 2025-05-02. Use 1, 3-1, or 3-2."))) := by
  have hday : day = 1 ∨ day = 2 ∨ day = 3 ∨ day = 4 := by omega
  refine ⟨?_, ?_, ?_, ?_⟩
  · rw [get_shift_guard_pass _ _ _ h1 h4,
      show get_shift_main (.str ("blue 1")) day d = blue_branch ("blue 1") ("1") day d
        from rfl]
    unfold blue_branch
    rw [if_neg (by decide), if_pos ⟨hs, he⟩]
    rcases hday with rfl | rfl | rfl | rfl <;> rfl
  · rw [get_shift_guard_pass _ _ _ h1 h4,
      show get_shift_main (.str ("blue 3-1")) day d = blue_branch ("blue 3-1") ("3-1") day d
        from rfl]
    unfold blue_branch
    rw [if_neg (by decide), if_pos ⟨hs, he⟩]
    rcases hday with rfl | rfl | rfl | rfl <;> rfl
  · rw [get_shift_guard_pass _ _ _ h1 h4,
      show get_shift_main (.str ("blue 3-2")) day d = blue_branch ("blue 3-2") ("3-2") day d
        from rfl]
    unfold blue_branch
    rw [if_neg (by decide), if_pos ⟨hs, he⟩]
    rcases hday with rfl | rfl | rfl | rfl <;> rfl
  · intro t ht hmd happ hmem
    rw [get_shift_pair_dispatch ("blue") t day d h1 h4 (by decide) ht (by decide) (by decide)
      (by decide) hmd happ]
    rw [if_neg (by decide), if_neg (by decide), if_pos rfl]
    unfold blue_branch
    rw [if_neg ht.1, if_pos ⟨hs, he⟩, if_pos hmem]

/-- Witness for C2 at the period's first day 2025-04-07, day number 1, with
the YPBB-only key "2-1" as the rejected key. -/
theorem C2_blue_special_period_witness :
    (isValidDate ⟨2025, 4, 7⟩ ∧ dateLE SPECIAL_BLUE_START_DATE ⟨2025, 4, 7⟩ ∧
      dateLE ⟨2025, 4, 7⟩ SPECIAL_BLUE_END_DATE) ∧
    get_shift_type_or_info (.str ("blue 1")) 1 ⟨2025, 4, 7⟩
      = .ret (some (format_md_app_output
          (if (1 : Int) = 1 ∨ (1 : Int) = 3 then ("Early") else ("Middle")))) ∧
    get_shift_type_or_info (.str ("blue" ++ " " ++ "2-1")) 1 ⟨2025, 4, 7⟩
      = .ret (some ("Error: Invalid suffix '" ++ "2-1"
          ++ "' for Blue shift during 2025-04-07 to 2025-05-02. Use 1, 3-1, or 3-2.")) := by
  refine ⟨⟨by decide, by decide, by decide⟩, ?_, ?_⟩
  · exact (C2_blue_special_period ⟨2025, 4, 7⟩ 1 (by decide) (by decide) (by decide)
      (by norm_num) (by norm_num)).1
  · exact (C2_blue_special_period ⟨2025, 4, 7⟩ 1 (by decide) (by decide) (by decide)
      (by norm_num) (by norm_num)).2.2.2 ("2-1") (by decide) (by decide) (by decide) (by decide)

/-- C3: for Yellow, Purple and Bronze on every date, and for Blue on every
date outside the special period, with every day number in {1,2,3,4}: a
rotation key in {"1-1","1-2","2-1","2-2","3"} yields exactly the shared YPBB
table entry for that key and day, wrapped in the APP/TML fixed-hours clause;
a missing key, or a (parsed) key outside the table, yields Failure. -/
theorem C3_ypbb_standard (d : PyDate) (day : Int)
    (hv : isValidDate d) (h1 : 1 ≤ day) (h4 : day ≤ 4) :
    (∀ name ∈ (["yellow", "purple", "bronze"] : List String),
      (∀ k ∈ (["1-1", "1-2", "2-1", "2-2", "3"] : List String),
        get_shift_type_or_info (.str (name ++ " " ++ k)) day d
          = .ret ((ypbbEntry k day).map format_md_app_output))
      ∧ get_shift_type_or_info (.str name) day d
          = .ret (some ("Error: " ++ pyCapitalize name ++ " shift '" ++ name
              ++ "' needs a suffix (e.g., 1-1, 2-2, 3)."))
      ∧ (∀ k : String, isCleanToken k → k ≠ "md" → k ≠ "app" →
          YPBB_SUFFIX_ROTATION k = none →
          get_shift_type_or_info (.str (name ++ " " ++ k)) day d
            = .ret (some ("Error: Invalid suffix '" ++ k ++ "' for "
                ++ pyCapitalize name ++ " shift. Use 1-1, 1-2, 2-1, 2-2, or 3."))))
    ∧ (¬(dateLE SPECIAL_BLUE_START_DATE d ∧ dateLE d SPECIAL_BLUE_END_DATE) →
      (∀ k ∈ (["1-1", "1-2", "2-1", "2-2", "3"] : List String),
        get_shift_type_or_info (.str ("blue" ++ " " ++ k)) day d
          = .ret ((ypbbEntry k day).map format_md_app_output))
      ∧ get_shift_type_or_info (.str ("blue")) day d
          = .ret (some ("Error: Blue shift 'blue' needs a suffix."))
      ∧ (∀ k : String, isCleanToken k → k ≠ "md" → k ≠ "app" →
          YPBB_SUFFIX_ROTATION k = none →
          get_shift_type_or_info (.str ("blue" ++ " " ++ k)) day d
            = .ret (some ("Error: Invalid suffix '" ++ k
                ++ "' for Blue shift (standard period). Use 1-1, 1-2, 2-1, 2-2, or 3.")))) := by
  have hday : day = 1 ∨ day = 2 ∨ day = 3 ∨ day = 4 := by omega
  constructor
  · intro name hname
    simp only [List.mem_cons, List.not_mem_nil, or_false] at hname
    refine ⟨?_, ?_, ?_⟩
    · intro k hk
      simp only [List.mem_cons, List.not_mem_nil, or_false] at hk
      rcases hname with rfl | rfl | rfl <;>
        rcases hk with rfl | rfl | rfl | rfl | rfl <;>
        · rw [get_shift_pair_dispatch _ _ day d h1 h4 (by decide) (by decide) (by decide)
            (by decide) (by decide) (by decide) (by decide)]
          rcases hday with rfl | rfl | rfl | rfl <;> rfl
    · rcases hname with rfl | rfl | rfl <;>
      · rw [get_shift_guard_pass _ _ _ h1 h4]
        rfl
    · intro k hk hmd happ hrot
      rcases hname with rfl | rfl | rfl <;>
      · rw [get_shift_pair_dispatch _ k day d h1 h4 (by decide) hk (by decide) (by decide)
          (by decide) hmd happ]
        rw [if_neg (by decide), if_neg (by decide), if_neg (by decide), if_pos (by decide)]
        unfold ypbb_branch
        rw [if_neg hk.1]
        simp only [hrot]
  · intro hout
    refine ⟨?_, ?_, ?_⟩
    · intro k hk
      simp only [List.mem_cons, List.not_mem_nil, or_false] at hk
      rcases hk with rfl | rfl | rfl | rfl | rfl <;>
      · rw [get_shift_pair_dispatch _ _ day d h1 h4 (by decide) (by decide) (by decide)
          (by decide) (by decide) (by decide) (by decide)]
        rw [if_neg (by decide), if_neg (by decide), if_pos rfl]
        unfold blue_branch
        rw [if_neg (by decide), if_neg hout]
        rcases hday with rfl | rfl | rfl | rfl <;> rfl
    · rw [get_shift_guard_pass _ _ _ h1 h4]
      rfl
    · intro k hk hmd happ hrot
      rw [get_shift_pair_dispatch _ k day d h1 h4 (by decide) hk (by decide) (by decide)
        (by decide) hmd happ]
      rw [if_neg (by decide), if_neg (by decide), if_pos rfl]
      unfold blue_branch
      rw [if_neg hk.1, if_neg hout]
      simp only [hrot]

/-- Witness for C3 at 2025-06-01 (outside the special period), day number 1:
a Yellow table hit, a Blue standard-period table hit, and a Blue
invalid-suffix Failure. -/
theorem C3_ypbb_standard_witness :
    isValidDate ⟨2025, 6, 1⟩ ∧
    ¬(dateLE SPECIAL_BLUE_START_DATE ⟨2025, 6, 1⟩ ∧
      dateLE ⟨2025, 6, 1⟩ SPECIAL_BLUE_END_DATE) ∧
    get_shift_type_or_info (.str ("yellow" ++ " " ++ "1-1")) 1 ⟨2025, 6, 1⟩
      = .ret ((ypbbEntry ("1-1") 1).map format_md_app_output) ∧
    get_shift_type_or_info (.str ("blue" ++ " " ++ "2-2")) 1 ⟨2025, 6, 1⟩
      = .ret ((ypbbEntry ("2-2") 1).map format_md_app_output) ∧
    get_shift_type_or_info (.str ("blue" ++ " " ++ "9")) 1 ⟨2025, 6, 1⟩
      = .ret (some ("Error: Invalid suffix '" ++ "9"
          ++ "' for Blue shift (standard period). Use 1-1, 1-2, 2-1, 2-2, or 3.")) := by
  refine ⟨by decide, by decide, ?_, ?_, ?_⟩
  · exact ((C3_ypbb_standard ⟨2025, 6, 1⟩ 1 (by decide) (by norm_num) (by norm_num)).1
      ("yellow") (by decide)).1 ("1-1") (by decide)
  · exact ((C3_ypbb_standard ⟨2025, 6, 1⟩ 1 (by decide) (by norm_num) (by norm_num)).2
      (by decide)).1 ("2-2") (by decide)
  · exact ((C3_ypbb_standard ⟨2025, 6, 1⟩ 1 (by decide) (by norm_num) (by norm_num)).2
      (by decide)).2.2 ("9") (by decide) (by decide) (by decide) (by rfl)

/-- C4: Gold returns Failure exactly when the rotation-key candidate is
missing, not parseable as an integer, or not positive (each with its message
naming the offender); and for every count in {2,3,4,5} and every day number
in {1,2,3,4} it returns the Gold table's per-day entry as a bare category. -/
theorem C4_gold_validation (d : PyDate) (day : Int)
    (hv : isValidDate d) (h1 : 1 ≤ day) (h4 : day ≤ 4) :
    (get_shift_type_or_info (.str ("gold")) day d
       = .ret (some ("Error: Shift 'gold' needs a number (e.g., Gold 3).")))
    ∧ (∀ t : String, isCleanToken t → t ≠ "md" → t ≠ "app" → pyParseInt t = none →
        get_shift_type_or_info (.str ("gold" ++ " " ++ t)) day d
          = .ret (some ("Error: Invalid number '" ++ t ++ "' in Gold shift '"
              ++ ("gold" ++ " " ++ t) ++ "'.")))
    ∧ (∀ (t : String) (n : Int), isCleanToken t → pyParseInt t = some n → n ≤ 0 →
        get_shift_type_or_info (.str ("gold" ++ " " ++ t)) day d
          = .ret (some ("Error: Gold shift number in '" ++ ("gold" ++ " " ++ t)
              ++ "' must be positive.")))
    ∧ (get_shift_type_or_info (.str ("gold 2")) day d = .ret (goldEntry 2 day))
    ∧ (get_shift_type_or_info (.str ("gold 3")) day d = .ret (goldEntry 3 day))
    ∧ (get_shift_type_or_info (.str ("gold 4")) day d = .ret (goldEntry 4 day))
    ∧ (get_shift_type_or_info (.str ("gold 5")) day d = .ret (goldEntry 5 day))
    ∧ (∀ (t : String) (n : Int), isCleanToken t → pyParseInt t = some n → 1 ≤ n →
        ¬ isFailure (get_shift_type_or_info (.str ("gold" ++ " " ++ t)) day d)) := by
  have hday : day = 1 ∨ day = 2 ∨ day = 3 ∨ day = 4 := by omega
  refine ⟨?_, ?_, ?_, ?_, ?_, ?_, ?_, ?_⟩
  · rw [get_shift_guard_pass _ _ _ h1 h4]
    rfl
  · intro t ht hmd happ hp
    rw [get_shift_pair_dispatch ("gold") t day d h1 h4 (by decide) ht (by decide) (by decide)
      (by decide) hmd happ]
    rw [if_pos rfl]
    unfold gold_branch
    rw [if_neg ht.1]
    simp only [hp]
  · intro t n ht hp hn
    have hmd : t ≠ "md" := by
      intro h
      rw [h, show pyParseInt ("md") = none from by decide] at hp
      cases hp
    have happ : t ≠ "app" := by
      intro h
      rw [h, show pyParseInt ("app") = none from by decide] at hp
      cases hp
    rw [get_shift_pair_dispatch ("gold") t day d h1 h4 (by decide) ht (by decide) (by decide)
      (by decide) hmd happ]
    rw [if_pos rfl]
    unfold gold_branch
    rw [if_neg ht.1]
    simp only [hp]
    rw [if_pos hn]
  · rw [get_shift_guard_pass _ _ _ h1 h4]
    rcases hday with rfl | rfl | rfl | rfl <;> rfl
  · rw [get_shift_guard_pass _ _ _ h1 h4]
    rcases hday with rfl | rfl | rfl | rfl <;> rfl
  · rw [get_shift_guard_pass _ _ _ h1 h4]
    rcases hday with rfl | rfl | rfl | rfl <;> rfl
  · rw [get_shift_guard_pass _ _ _ h1 h4]
    rcases hday with rfl | rfl | rfl | rfl <;> rfl
  · intro t n ht hp hpos
    have hmd : t ≠ "md" := by
      intro h
      rw [h, show pyParseInt ("md") = none from by decide] at hp
      cases hp
    have happ : t ≠ "app" := by
      intro h
      rw [h, show pyParseInt ("app") = none from by decide] at hp
      cases hp
    rw [get_shift_pair_dispatch ("gold") t day d h1 h4 (by decide) ht (by decide) (by decide)
      (by decide) hmd happ]
    rw [if_pos rfl]
    unfold gold_branch
    rw [if_neg ht.1]
    simp only [hp]
    rw [if_neg (show ¬n ≤ 0 by omega)]
    by_cases h6 : (6 : Int) ≤ n
    · rw [if_neg (show ¬n = 1 by omega), if_pos h6]
      exact not_failure_ret (by decide)
    · by_cases hn1 : n = 1
      · rw [if_pos hn1]
        exact not_failure_ret (by decide)
      · have h25 : 2 ≤ n ∧ n ≤ 5 := by omega
        rw [if_neg hn1, if_neg h6, if_pos h25]
        have hn4 : n = 2 ∨ n = 3 ∨ n = 4 ∨ n = 5 := by omega
        rcases hn4 with rfl | rfl | rfl | rfl <;>
          rcases hday with rfl | rfl | rfl | rfl <;>
          exact not_failure_ret (by decide)

/-- Witness for C4 at 2025-06-01, day number 1: the missing-key Failure, the
non-integer key "abc", the non-positive key "0", and the count-3 table hit. -/
theorem C4_gold_validation_witness :
    isValidDate ⟨2025, 6, 1⟩ ∧ pyParseInt ("abc") = none ∧ pyParseInt ("0") = some 0 ∧
    get_shift_type_or_info (.str ("gold")) 1 ⟨2025, 6, 1⟩
      = .ret (some ("Error: Shift 'gold' needs a number (e.g., Gold 3).")) ∧
    get_shift_type_or_info (.str ("gold" ++ " " ++ "abc")) 1 ⟨2025, 6, 1⟩
      = .ret (some ("Error: Invalid number '" ++ "abc" ++ "' in Gold shift '"
          ++ ("gold" ++ " " ++ "abc") ++ "'.")) ∧
    get_shift_type_or_info (.str ("gold" ++ " " ++ "0")) 1 ⟨2025, 6, 1⟩
      = .ret (some ("Error: Gold shift number in '" ++ ("gold" ++ " " ++ "0")
          ++ "' must be positive.")) ∧
    get_shift_type_or_info (.str ("gold 3")) 1 ⟨2025, 6, 1⟩ = .ret (goldEntry 3 1) := by
  refine ⟨by decide, by decide, by decide, ?_, ?_, ?_, ?_⟩
  · exact (C4_gold_validation ⟨2025, 6, 1⟩ 1 (by decide) (by norm_num) (by norm_num)).1
  · exact (C4_gold_validation ⟨2025, 6, 1⟩ 1 (by decide) (by norm_num) (by norm_num)).2.1
      ("abc") (by decide) (by decide) (by decide) (by decide)
  · exact (C4_gold_validation ⟨2025, 6, 1⟩ 1 (by decide) (by norm_num) (by norm_num)).2.2.1
      ("0") 0 (by decide) (by decide) (by norm_num)
  · exact (C4_gold_validation ⟨2025, 6, 1⟩ 1 (by decide) (by norm_num)
      (by norm_num)).2.2.2.2.1

/-- C5: for every day number in {1,2,3,4} and every date, "gold 1" is bare
Early and "gold N" with N ≥ 6 bare Middle; "silver" with no rotation-key
candidate or a non-numeric one is bare Early, and "silver N" with N ≥ 2 bare
Middle. -/
theorem C5_gold_silver_constant (d : PyDate) (day : Int)
    (hv : isValidDate d) (h1 : 1 ≤ day) (h4 : day ≤ 4) :
    (get_shift_type_or_info (.str ("gold 1")) day d = .ret (some ("Early")))
    ∧ (∀ (t : String) (n : Int), isCleanToken t → pyParseInt t = some n → 6 ≤ n →
        get_shift_type_or_info (.str ("gold" ++ " " ++ t)) day d = .ret (some ("Middle")))
    ∧ (get_shift_type_or_info (.str ("silver")) day d = .ret (some ("Early")))
    ∧ (∀ t : String, isCleanToken t → t ≠ "md" → t ≠ "app" → pyParseInt t = none →
        get_shift_type_or_info (.str ("silver" ++ " " ++ t)) day d = .ret (some ("Early")))
    ∧ (∀ (t : String) (n : Int), isCleanToken t → pyParseInt t = some n → 2 ≤ n →
        get_shift_type_or_info (.str ("silver" ++ " " ++ t)) day d
          = .ret (some ("Middle"))) := by
  refine ⟨?_, ?_, ?_, ?_, ?_⟩
  · rw [get_shift_guard_pass _ _ _ h1 h4]
    rfl
  · intro t n ht hp h6
    have hmd : t ≠ "md" := by
      intro h
      rw [h, show pyParseInt ("md") = none from by decide] at hp
      cases hp
    have happ : t ≠ "app" := by
      intro h
      rw [h, show pyParseInt ("app") = none from by decide] at hp
      cases hp
    rw [get_shift_pair_dispatch ("gold") t day d h1 h4 (by decide) ht (by decide) (by decide)
      (by decide) hmd happ]
    rw [if_pos rfl]
    unfold gold_branch
    rw [if_neg ht.1]
    simp only [hp]
    rw [if_neg (show ¬n ≤ 0 by omega), if_neg (show ¬n = 1 by omega), if_pos h6]
  · rw [get_shift_guard_pass _ _ _ h1 h4]
    rfl
  · intro t ht hmd happ hp
    rw [get_shift_pair_dispatch ("silver") t day d h1 h4 (by decide) ht (by decide) (by decide)
      (by decide) hmd happ]
    rw [if_neg (by decide), if_pos rfl]
    unfold silver_branch
    rw [if_pos ht.1]
    simp only [hp]
  · intro t n ht hp h2
    have hmd : t ≠ "md" := by
      intro h
      rw [h, show pyParseInt ("md") = none from by decide] at hp
      cases hp
    have happ : t ≠ "app" := by
      intro h
      rw [h, show pyParseInt ("app") = none from by decide] at hp
      cases hp
    rw [get_shift_pair_dispatch ("silver") t day d h1 h4 (by decide) ht (by decide) (by decide)
      (by decide) hmd happ]
    rw [if_neg (by decide), if_pos rfl]
    unfold silver_branch
    rw [if_pos ht.1]
    simp only [hp]
    rw [if_neg (show ¬n ≤ 0 by omega), if_neg (show ¬n = 1 by omega), if_pos h2]

/-- Witness for C5 at 2025-06-01, day number 2: "gold 1", "gold 7",
"silver", "silver abc", "silver 2". -/
theorem C5_gold_silver_constant_witness :
    isValidDate ⟨2025, 6, 1⟩ ∧ pyParseInt ("7") = some 7 ∧ pyParseInt ("2") = some 2 ∧
    get_shift_type_or_info (.str ("gold 1")) 2 ⟨2025, 6, 1⟩ = .ret (some ("Early")) ∧
    get_shift_type_or_info (.str ("gold" ++ " " ++ "7")) 2 ⟨2025, 6, 1⟩
      = .ret (some ("Middle")) ∧
    get_shift_type_or_info (.str ("silver")) 2 ⟨2025, 6, 1⟩ = .ret (some ("Early")) ∧
    get_shift_type_or_info (.str ("silver" ++ " " ++ "abc")) 2 ⟨2025, 6, 1⟩
      = .ret (some ("Early")) ∧
    get_shift_type_or_info (.str ("silver" ++ " " ++ "2")) 2 ⟨2025, 6, 1⟩
      = .ret (some ("Middle")) := by
  refine ⟨by decide, by decide, by decide, ?_, ?_, ?_, ?_, ?_⟩
  · exact (C5_gold_silver_constant ⟨2025, 6, 1⟩ 2 (by decide) (by norm_num) (by norm_num)).1
  · exact (C5_gold_silver_constant ⟨2025, 6, 1⟩ 2 (by decide) (by norm_num) (by norm_num)).2.1
      ("7") 7 (by decide) (by decide) (by norm_num)
  · exact (C5_gold_silver_constant ⟨2025, 6, 1⟩ 2 (by decide)
      (by norm_num) (by norm_num)).2.2.1
  · exact (C5_gold_silver_constant ⟨2025, 6, 1⟩ 2 (by decide)
      (by norm_num) (by norm_num)).2.2.2.1 ("abc") (by decide) (by decide) (by decide)
      (by decide)
  · exact (C5_gold_silver_constant ⟨2025, 6, 1⟩ 2 (by decide)
      (by norm_num) (by norm_num)).2.2.2.2 ("2") 2 (by decide) (by decide) (by norm_num)

/-- C8: a shift input that normalises to the empty string (empty or
whitespace-only raw strings, and non-string inputs) yields the empty-input
Failure, for every date and every day number in {1,2,3,4}. -/
theorem C8_empty_input (v : PyStr) (day : Int) (d : PyDate)
    (h1 : 1 ≤ day) (h4 : day ≤ 4) (hclean : clean_input v = "") :
    get_shift_type_or_info v day d
      = .ret (some ("Error: Shift name input cannot be empty.")) := by
  rw [get_shift_guard_pass _ _ _ h1 h4]
  unfold get_shift_main
  simp [hclean]

/-- Witness for C8 on the whitespace-only string `"   "`. -/
theorem C8_empty_input_witness :
    clean_input (.str ("   ")) = "" ∧
    get_shift_type_or_info (.str ("   ")) 2 ANCHOR_DATE
      = .ret (some ("Error: Shift name input cannot be empty.")) :=
  ⟨by decide, C8_empty_input (.str ("   ")) 2 ANCHOR_DATE (by norm_num) (by norm_num) (by decide)⟩

/-- C6: the exact normalised identifiers "gray 1 md" and "mist transplant"
are bare Early on day numbers {1,3} and bare Middle on {2,4}; "gray 2 md"
and "gray 3 app" are bare Middle on {1,3} and bare Early on {2,4}; and any
other input whose line name is "gray" yields the Failure listing the three
valid Gray identifiers. -/
theorem C6_gray_mist_roles (d : PyDate) (day : Int)
    (hv : isValidDate d) (h1 : 1 ≤ day) (h4 : day ≤ 4) :
    (get_shift_type_or_info (.str ("gray 1 md")) day d
       = .ret (some (if day = 1 ∨ day = 3 then ("Early") else ("Middle"))))
    ∧ (get_shift_type_or_info (.str ("mist transplant")) day d
       = .ret (some (if day = 1 ∨ day = 3 then ("Early") else ("Middle"))))
    ∧ (get_shift_type_or_info (.str ("gray 2 md")) day d
       = .ret (some (if day = 1 ∨ day = 3 then ("Middle") else ("Early"))))
    ∧ (get_shift_type_or_info (.str ("gray 3 app")) day d
       = .ret (some (if day = 1 ∨ day = 3 then ("Middle") else ("Early"))))
    ∧ (∀ (s : String) (rest : List String),
        pySplit (clean_input (.str s)) = "gray" :: rest →
        clean_input (.str s) ∉ ALL_GRAY_MIST_ROLES →
        get_shift_type_or_info (.str s) day d
          = .ret (some ("Error: Unknown Gray shift role '" ++ s
              ++ "'. Use 'Gray 1 MD', 'Gray 2 MD', or 'Gray 3 APP'."))) := by
  have hday : day = 1 ∨ day = 2 ∨ day = 3 ∨ day = 4 := by omega
  refine ⟨?_, ?_, ?_, ?_, ?_⟩
  · rw [get_shift_guard_pass _ _ _ h1 h4]
    rcases hday with rfl | rfl | rfl | rfl <;> rfl
  · rw [get_shift_guard_pass _ _ _ h1 h4]
    rcases hday with rfl | rfl | rfl | rfl <;> rfl
  · rw [get_shift_guard_pass _ _ _ h1 h4]
    rcases hday with rfl | rfl | rfl | rfl <;> rfl
  · rw [get_shift_guard_pass _ _ _ h1 h4]
    rcases hday with rfl | rfl | rfl | rfl <;> rfl
  · intro s rest hsplit hroles
    rw [get_shift_guard_pass _ _ _ h1 h4]
    unfold get_shift_main
    have hne : clean_input (.str s) ≠ "" := by
      intro h
      rw [h] at hsplit
      simp [pySplit, pySplitAux] at hsplit
    rw [if_neg hne, if_neg hroles]
    have hmist : ¬(startsWithChars (("mist scu").toList)
        (clean_input (.str s)).toList = true) := by
      intro hsw
      obtain ⟨rest', hr'⟩ := mist_scu_first_token _ hsw
      rw [hsplit] at hr'
      exact absurd (List.cons.inj hr').1 (by decide)
    rw [if_neg hmist]
    unfold line_dispatch
    simp only [hsplit, rawOf]
    rw [if_neg (by decide), if_neg (by decide), if_neg (by decide), if_neg (by decide),
      if_neg (by decide), if_pos trivial]

/-- Witness for C6 on "Gray 1 MD" at day number 3 and the unknown Gray role
"Gray 4". -/
theorem C6_gray_mist_roles_witness :
    isValidDate ⟨2025, 6, 1⟩ ∧
    pySplit (clean_input (.str ("Gray 4"))) = "gray" :: ["4"] ∧
    clean_input (.str ("Gray 4")) ∉ ALL_GRAY_MIST_ROLES ∧
    get_shift_type_or_info (.str ("gray 1 md")) 3 ⟨2025, 6, 1⟩
      = .ret (some (if (3 : Int) = 1 ∨ (3 : Int) = 3 then ("Early") else ("Middle"))) ∧
    get_shift_type_or_info (.str ("Gray 4")) 3 ⟨2025, 6, 1⟩
      = .ret (some ("Error: Unknown Gray shift role '" ++ "Gray 4"
          ++ "'. Use 'Gray 1 MD', 'Gray 2 MD', or 'Gray 3 APP'.")) := by
  refine ⟨by decide, by decide, by decide, ?_, ?_⟩
  · exact (C6_gray_mist_roles ⟨2025, 6, 1⟩ 3 (by decide) (by norm_num) (by norm_num)).1
  · exact (C6_gray_mist_roles ⟨2025, 6, 1⟩ 3 (by decide) (by norm_num) (by norm_num)).2.2.2.2
      ("Gray 4") ["4"] (by decide) (by decide)

/-- C7: a non-empty shift string whose leading token is none of the modelled
line names and which matches no multi-word identifier yields the
Unrecognized signal `None`, which is distinct from Failure. -/
theorem C7_unknown_line (s : String) (day : Int) (d : PyDate)
    (hv : isValidDate d) (h1 : 1 ≤ day) (h4 : day ≤ 4)
    (nm : String) (rest : List String)
    (hsplit : pySplit (clean_input (.str s)) = nm :: rest)
    (hnm : nm ∉ (["gold", "silver", "blue", "yellow", "purple", "bronze",
      "green", "gray"] : List String))
    (hroles : clean_input (.str s) ∉ ALL_GRAY_MIST_ROLES)
    (hmist : startsWithChars (("mist scu").toList) (clean_input (.str s)).toList = false) :
    get_shift_type_or_info (.str s) day d = .ret none
    ∧ ¬ isFailure (PyResult.ret none) := by
  have hn : nm ≠ "gold" ∧ nm ≠ "silver" ∧ nm ≠ "blue" ∧ nm ≠ "yellow" ∧ nm ≠ "purple" ∧
      nm ≠ "bronze" ∧ nm ≠ "green" ∧ nm ≠ "gray" := by
    simp only [List.mem_cons, List.not_mem_nil, or_false, not_or] at hnm
    exact hnm
  refine ⟨?_, not_failure_ret_none⟩
  rw [get_shift_guard_pass _ _ _ h1 h4]
  unfold get_shift_main
  have hne : clean_input (.str s) ≠ "" := by
    intro h
    rw [h] at hsplit
    simp [pySplit, pySplitAux] at hsplit
  rw [if_neg hne, if_neg hroles]
  rw [if_neg (show ¬(startsWithChars (("mist scu").toList)
      (clean_input (.str s)).toList = true) by
    rw [hmist]; exact Bool.false_ne_true)]
  unfold line_dispatch
  simp only [hsplit, rawOf]
  rw [if_neg hn.1, if_neg hn.2.1, if_neg hn.2.2.1,
    if_neg (show ¬(nm ∈ (["yellow", "purple", "bronze"] : List String)) by
      simp [hn.2.2.2.1, hn.2.2.2.2.1, hn.2.2.2.2.2.1]),
    if_neg hn.2.2.2.2.2.2.1, if_neg hn.2.2.2.2.2.2.2]

/-- Witness for C7 on the unknown line "Teal 1". -/
theorem C7_unknown_line_witness :
    isValidDate ⟨2025, 6, 1⟩ ∧
    pySplit (clean_input (.str ("Teal 1"))) = "teal" :: ["1"] ∧
    get_shift_type_or_info (.str ("Teal 1")) 2 ⟨2025, 6, 1⟩ = .ret none ∧
    ¬ isFailure (PyResult.ret none) :=
  ⟨by decide, by decide,
    C7_unknown_line ("Teal 1") 2 ⟨2025, 6, 1⟩ (by decide) (by norm_num) (by norm_num)
      ("teal") ["1"] (by decide) (by decide) (by decide) (by decide)⟩

/-- C9 counterexample: `clean_input` is not idempotent.  On `", ,"` the
commas are removed only after stripping, leaving the single space `" "`;
cleaning again strips that space away to `""`. -/
theorem C9_counterexample :
    clean_input (.str (clean_input (.str (", ,")))) ≠ clean_input (.str (", ,")) := by
  decide

/-- C9 (amended): `clean_input` is idempotent on every input containing no
comma character (idempotence fails only when removing commas exposes
whitespace at the ends of the string, as in the counterexample `", ,"`); it
is case/comma/whitespace-insensitive, with
`clean_input "Gold,  5" = clean_input "gold 5"`; and a non-string input
normalises to the empty string. -/
theorem C9_clean_input_amended :
    (∀ s : String, (∀ c ∈ s.toList, c ≠ ',') →
      clean_input (.str (clean_input (.str s))) = clean_input (.str s)) ∧
    clean_input (.str ("Gold,  5")) = clean_input (.str ("gold 5")) ∧
    clean_input .nonStr = "" := by
  refine ⟨?_, by decide, rfl⟩
  intro s hs
  rw [clean_input_str, clean_input_str, toList_mk, cleanChars_idem hs]

/-- Witness for the amended C9 on the comma-free string `"  GOLD  5   app "`. -/
theorem C9_clean_input_amended_witness :
    (∀ c ∈ ("  GOLD  5   app ").toList, c ≠ ',') ∧
    clean_input (.str (clean_input (.str ("  GOLD  5   app "))))
      = clean_input (.str ("  GOLD  5   app ")) :=
  ⟨by decide, C9_clean_input_amended.1 ("  GOLD  5   app ") (by decide)⟩

/-- C10: the claim fails on the code.  The input `", ,"` cleans to the
non-empty, all-whitespace string `" "`, which passes the emptiness check but
splits into no tokens, so `parts[0]` raises an uncaught `IndexError` instead
of returning a `ClassificationResult`. -/
theorem C10_crash_on_whitespace_only_clean :
    get_shift_type_or_info (.str (", ,")) 1 ANCHOR_DATE
      = .exn ("IndexError: list index out of range") := by
  decide

end ShiftCalc
